import Mathlib

/-!
Verification development for the cc-sdd specification workflow server.

The development shallowly embeds the phase-gated specification workflow:

* `src/cc_sdd_mcp/models/specification.py` — phases, metadata, the
  feature-name validator run by the metadata model;
* `src/cc_sdd_mcp/utils/paths.py` — `normalize_feature_name`;
* `src/cc_sdd_mcp/tools/specification.py` — the `spec_init` handler;
* `src/cc_sdd_mcp/workflows/spec_workflow.py` — `generate_requirements`,
  `generate_design`, `generate_tasks`, `get_spec_status`;
* `src/cc_sdd_mcp/utils/filesystem.py` — `list_specs`;
* `src/cc_sdd_mcp/workflows/validation_workflow.py` — `validate_design`.

The filesystem is modelled as an association list from spec-directory name
to directory contents.  Raised Python exceptions are modelled as
`Except.error`; returned failure dictionaries are modelled as result
values.  Timestamps (`datetime.now()`) are threaded as a `Nat` parameter
`now`.  Template loading and Jinja rendering (out-of-scope collaborators
consumed through `TemplateLoader`) are an environment: loading a spec
template yields `Option String` (`none` models a falsy template), and
rendering yields `Option String` (`none` models a raised Jinja exception).
-/

/-! ## Python string primitives

Character-list implementations of the Python `str` methods the embedded
code uses: `strip`, `lower`, `replace`, and the `in` substring test.
Everything is structurally recursive so that concrete inputs evaluate
inside the kernel.
-/

/-- Decidable equality for `Except`, used to evaluate embedded operations
on concrete inputs. -/
instance {ε α : Type} [DecidableEq ε] [DecidableEq α] : DecidableEq (Except ε α) := fun
  | .error e, .error f =>
    match decEq e f with
    | isTrue h => isTrue (by rw [h])
    | isFalse h => isFalse (by intro hh; injection hh; exact h ‹_›)
  | .error _, .ok _ => isFalse (by intro h; exact Except.noConfusion h)
  | .ok _, .error _ => isFalse (by intro h; exact Except.noConfusion h)
  | .ok a, .ok b =>
    match decEq a b with
    | isTrue h => isTrue (by rw [h])
    | isFalse h => isFalse (by intro hh; injection hh; exact h ‹_›)

/-- Python `str.strip()` with no argument: drop leading and trailing
whitespace characters. -/
def pyStripChars (s : List Char) : List Char :=
  ((s.dropWhile Char.isWhitespace).reverse.dropWhile Char.isWhitespace).reverse

/-- Python `str.lower()` restricted to the basic-latin range, which is all
the embedded code relies on. -/
def pyLowerChars (s : List Char) : List Char :=
  s.map Char.toLower

/-- If `s = pat ++ rest`, return `some rest`, else `none`. -/
def matchDrop : List Char → List Char → Option (List Char)
  | s, [] => some s
  | [], _ :: _ => none
  | c :: s, p :: ps => if c = p then matchDrop s ps else none

/-- Python `str.replace(pat, rep)` on character lists, fuelled so the
recursion is structural.  Fuel `s.length` is enough because every step
consumes at least one character of the haystack (the embedded code only
ever replaces single-character, hence non-empty, patterns). -/
def pyReplaceFuel (pat rep : List Char) : Nat → List Char → List Char
  | _, [] => []
  | 0, s => s
  | n + 1, c :: s =>
    match matchDrop (c :: s) pat with
    | some rest => if pat.isEmpty then c :: pyReplaceFuel pat rep n s
                   else rep ++ pyReplaceFuel pat rep n rest
    | none => c :: pyReplaceFuel pat rep n s

/-- Python `str.replace(pat, rep)` for non-empty `pat`. -/
def pyReplaceChars (s pat rep : List Char) : List Char :=
  pyReplaceFuel pat rep s.length s

/-- Does `s` start with `pat`? -/
def startsWithChars : List Char → List Char → Bool
  | _, [] => true
  | [], _ :: _ => false
  | c :: s, p :: ps => c = p && startsWithChars s ps

/-- Python `needle in haystack` substring containment on character lists. -/
def containsChars : List Char → List Char → Bool
  | [], needle => needle.isEmpty
  | c :: s, needle => startsWithChars (c :: s) needle || containsChars s needle

/-- Python `str.strip()`. -/
def pyStrip (s : String) : String := ⟨pyStripChars s.data⟩

/-- Python `str.lower()`. -/
def pyLower (s : String) : String := ⟨pyLowerChars s.data⟩

/-- Python `str.replace(pat, rep)`. -/
def pyReplace (s pat rep : String) : String := ⟨pyReplaceChars s.data pat.data rep.data⟩

/-- Python `needle in haystack` on strings. -/
def pyContains (haystack needle : String) : Bool := containsChars haystack.data needle.data

/-! ## Data model (`models/specification.py`) -/

/-- Embedding of `SpecPhase`: phases of the spec-driven development lifecycle. -/
inductive SpecPhase where
  | initialized
  | requirements
  | design
  | tasks
  | implementation
  | completed
deriving DecidableEq, Repr

/-- The string value of each phase (the `str`-enum value in Python). -/
def SpecPhase.value : SpecPhase → String
  | .initialized => "initialized"
  | .requirements => "requirements"
  | .design => "design"
  | .tasks => "tasks"
  | .implementation => "implementation"
  | .completed => "completed"

/-- Position of a phase in the linear lifecycle order. -/
def SpecPhase.idx : SpecPhase → Nat
  | .initialized => 0
  | .requirements => 1
  | .design => 2
  | .tasks => 3
  | .implementation => 4
  | .completed => 5

/-- Embedding of `SpecificationMetadata`: metadata for one feature specification.
Timestamps are modelled as `Nat`. -/
structure SpecificationMetadata where
  feature_name : String
  description : String
  current_phase : SpecPhase
  created_at : Nat
  updated_at : Nat
  approved_phases : List SpecPhase
deriving DecidableEq, Repr

/-- The `validate_feature_name` field validator of `SpecificationMetadata`
(`models/specification.py`, lines 35-42).  Pydantic runs it whenever a
metadata object is constructed, including on load from JSON.  It rejects
blank names and returns `v.strip().lower().replace(" ", "-")` — note that
it does NOT replace underscores. -/
def validate_feature_name (v : String) : Except String String :=
  if v = "" ∨ pyStrip v = "" then .error "Feature name cannot be empty"
  else .ok (pyReplace (pyLower (pyStrip v)) " " "-")

/-- Embedding of `normalize_feature_name` (`utils/paths.py`, lines 140-149): the path
utility that, unlike the metadata validator, also replaces underscores:
`feature_name.strip().lower().replace(" ", "-").replace("_", "-")`. -/
def normalize_feature_name (feature_name : String) : String :=
  pyReplace (pyReplace (pyLower (pyStrip feature_name)) " " "-") "_" "-"

/-! ## Filesystem model

One feature spec directory under `.kiro/specs/` holds `metadata.json`, the
three phase artifacts, and possibly a `spec.json` file (no code under
`src/` ever writes one, but `FileSystemManager.list_specs` looks for it).
The specs directory is an association list from directory name to
contents; `lookupDir` returns the first entry with the given name and
`setDir` overwrites it (or appends a new directory). -/

structure SpecDirState where
  metadata : Option SpecificationMetadata
  requirements_md : Option String
  design_md : Option String
  tasks_md : Option String
  spec_json : Option String
deriving DecidableEq, Repr

/-- A freshly created, empty spec directory. -/
def SpecDirState.empty : SpecDirState := ⟨none, none, none, none, none⟩

/-- The `.kiro/specs` directory: directory name mapped to contents. -/
abbrev Specs := List (String × SpecDirState)

/-- Find a spec directory by name. -/
def lookupDir : Specs → String → Option SpecDirState
  | [], _ => none
  | (n, d) :: rest, name => if n = name then some d else lookupDir rest name

/-- Overwrite (or create) the spec directory `name`. -/
def setDir : Specs → String → SpecDirState → Specs
  | [], name, d => [(name, d)]
  | (n, d0) :: rest, name, d =>
    if n = name then (n, d) :: rest else (n, d0) :: setDir rest name d

/-- Rendering of a spec-directory path, `SpecWorkflow._get_spec_dir`:
`project_dir / config.kiro_dir / "specs" / feature_name` with the
caller-supplied feature name used verbatim (no normalization). -/
def specDirPath (feature_name : String) : String := ".kiro/specs/" ++ feature_name

/-! ## `spec_init` (`tools/specification.py`, lines 23-69) -/

/-- Result dictionary of the `spec_init` tool. -/
structure InitResult where
  success : Bool
  feature_name : String
  spec_dir : String
  current_phase : String
  message : String
deriving DecidableEq, Repr

/-- Embedding of `spec_init_handler`: validates arguments, constructs the metadata
(normalizing the name through the pydantic validator), creates the spec
directory with `mkdir(exist_ok=True)`, and writes `metadata.json`
unconditionally — when the directory and metadata already exist they are
silently overwritten (no conflict check).  `Except.error` models the
raised `ValueError`s. -/
def spec_init (specs : Specs) (feature_name description : String) (now : Nat) :
    Except String (Specs × InitResult) :=
  if feature_name = "" ∨ description = "" then
    .error "Both feature_name and description are required"
  else
    match validate_feature_name feature_name with
    | .error e => .error e
    | .ok fn =>
      let metadata : SpecificationMetadata :=
        { feature_name := fn, description := description,
          current_phase := .initialized, created_at := now, updated_at := now,
          approved_phases := [] }
      -- mkdir(parents=True, exist_ok=True): keep existing directory contents
      let dir := (lookupDir specs fn).getD SpecDirState.empty
      -- metadata_file.write_text(...): unconditional overwrite
      let specs1 := setDir specs fn { dir with metadata := some metadata }
      .ok (specs1,
        { success := true, feature_name := fn, spec_dir := specDirPath fn,
          current_phase := SpecPhase.initialized.value,
          message := "Specification " ++ fn ++ " initialized successfully" })

/-! ## Workflow operations (`workflows/spec_workflow.py`) -/

/-- Environment abstracting the out-of-scope `TemplateLoader` collaborator.
`spec_template t` is the outcome of `load_spec_template(t, t)` for spec
type `t` (`none` models a falsy — missing or empty — template);
`render tpl` is the outcome of `render_jinja_template(tpl, context)`
(`none` models a raised Jinja exception).  The phase contexts built by
`_build_requirements_context` and friends only feed the renderer, so the
rendered text is opaque here. -/
structure TemplateEnv where
  spec_template : String → Option String
  render : String → Option String

/-- Result dictionary of the three generation operations: either the
returned failure dictionary (`success: False` with an `error`, optionally
`current_phase` and `message` entries) or the success dictionary. -/
inductive GenResult where
  | failure (error : String) (current_phase : Option String) (message : Option String)
  | success (feature_name : String) (file : String) (current_phase : String)
      (auto_approved : Bool) (message : String)
deriving DecidableEq, Repr

/-- Message of the `FileNotFoundError` raised by `_load_metadata` (the
Python text wraps the name in single quotes). -/
def spec_not_found_msg (feature_name : String) : String :=
  "Specification " ++ feature_name ++ " not found. Run spec_init first."

/-- Embedding of `SpecWorkflow._load_metadata`: looks the directory up under the
caller-supplied feature name verbatim, raises `FileNotFoundError` when
`metadata.json` is absent, and re-validates the stored `feature_name`
through the pydantic validator on construction. -/
def load_metadata (specs : Specs) (feature_name : String) :
    Except String SpecificationMetadata :=
  match lookupDir specs feature_name with
  | none => .error (spec_not_found_msg feature_name)
  | some dir =>
    match dir.metadata with
    | none => .error (spec_not_found_msg feature_name)
    | some m =>
      match validate_feature_name m.feature_name with
      | .error e => .error e
      | .ok fn => .ok { m with feature_name := fn }

/-- Embedding of `SpecWorkflow._save_metadata`: refreshes `updated_at` and writes
`metadata.json` into the directory named by `metadata.feature_name` (not
by the caller-supplied lookup name).  `write_text` raises when the parent
directory does not exist, modelled as `Except.error`. -/
def save_metadata (specs : Specs) (m : SpecificationMetadata) (now : Nat) :
    Except String Specs :=
  match lookupDir specs m.feature_name with
  | none => .error ("No such directory: " ++ specDirPath m.feature_name)
  | some dir =>
    .ok (setDir specs m.feature_name
      { dir with metadata := some { m with updated_at := now } })

/-- Embedding of `SpecWorkflow.generate_requirements` (lines 160-220): phase window
`{Initialized, Requirements}` (no approval gate for the first phase),
template load, render, artifact write, then metadata update — phase set to
`Requirements` and, only under `auto_approve`, `Requirements` appended to
`approved_phases` if not already present.  The steering-context read
between the phase check and the template load is read-only and feeds only
the rendered text, so it is absorbed into the render environment. -/
def generate_requirements (env : TemplateEnv) (specs : Specs) (feature_name : String)
    (auto_approve : Bool) (now : Nat) : Except String (Specs × GenResult) :=
  match load_metadata specs feature_name with
  | .error e => .error e
  | .ok metadata =>
    if metadata.current_phase ∉ [SpecPhase.initialized, SpecPhase.requirements] then
      .ok (specs, .failure
        ("Cannot generate requirements in phase: " ++ metadata.current_phase.value)
        (some metadata.current_phase.value) none)
    else
      match env.spec_template "requirements" with
      | none => .ok (specs, .failure "Requirements template not found" none none)
      | some template =>
        match env.render template with
        | none => .ok (specs, .failure "Template rendering failed" none none)
        | some content =>
          let dir := (lookupDir specs feature_name).getD SpecDirState.empty
          let specs1 := setDir specs feature_name { dir with requirements_md := some content }
          let metadata1 := { metadata with
            current_phase := SpecPhase.requirements,
            approved_phases :=
              if auto_approve = true ∧ SpecPhase.requirements ∉ metadata.approved_phases
              then metadata.approved_phases ++ [SpecPhase.requirements]
              else metadata.approved_phases }
          match save_metadata specs1 metadata1 now with
          | .error e => .error e
          | .ok specs2 =>
            .ok (specs2, .success feature_name
              (specDirPath feature_name ++ "/requirements.md")
              SpecPhase.requirements.value auto_approve
              "Requirements generated successfully using enhanced EARS template")

/-- Embedding of `SpecWorkflow.generate_design` (lines 286-353): phase window
`{Requirements, Design}`; approval gate — fails when `Requirements` is not
approved AND the current phase is `Requirements` AND `auto_approve` is not
set; then template load, render, artifact write, metadata update (phase
`Design`, conditional append of `Design`). -/
def generate_design (env : TemplateEnv) (specs : Specs) (feature_name : String)
    (auto_approve : Bool) (now : Nat) : Except String (Specs × GenResult) :=
  match load_metadata specs feature_name with
  | .error e => .error e
  | .ok metadata =>
    if metadata.current_phase ∉ [SpecPhase.requirements, SpecPhase.design] then
      .ok (specs, .failure
        ("Cannot generate design in phase: " ++ metadata.current_phase.value)
        (some metadata.current_phase.value) none)
    else if SpecPhase.requirements ∉ metadata.approved_phases ∧
        metadata.current_phase = SpecPhase.requirements ∧ auto_approve = false then
      .ok (specs, .failure "Requirements must be approved before generating design"
        (some metadata.current_phase.value)
        (some "Please review and approve requirements first, or use auto_approve=true"))
    else
      match env.spec_template "design" with
      | none => .ok (specs, .failure "Design template not found" none none)
      | some template =>
        match env.render template with
        | none => .ok (specs, .failure "Template rendering failed" none none)
        | some content =>
          let dir := (lookupDir specs feature_name).getD SpecDirState.empty
          let specs1 := setDir specs feature_name { dir with design_md := some content }
          let metadata1 := { metadata with
            current_phase := SpecPhase.design,
            approved_phases :=
              if auto_approve = true ∧ SpecPhase.design ∉ metadata.approved_phases
              then metadata.approved_phases ++ [SpecPhase.design]
              else metadata.approved_phases }
          match save_metadata specs1 metadata1 now with
          | .error e => .error e
          | .ok specs2 =>
            .ok (specs2, .success feature_name
              (specDirPath feature_name ++ "/design.md")
              SpecPhase.design.value auto_approve
              "Design generated successfully using enhanced template")

/-- Embedding of `SpecWorkflow.generate_tasks` (lines 437-502): phase window
`{Design, Tasks}`; approval gate on `Design`; then template load, render,
artifact write, metadata update (phase `Tasks`, conditional append of
`Tasks`). -/
def generate_tasks (env : TemplateEnv) (specs : Specs) (feature_name : String)
    (auto_approve : Bool) (now : Nat) : Except String (Specs × GenResult) :=
  match load_metadata specs feature_name with
  | .error e => .error e
  | .ok metadata =>
    if metadata.current_phase ∉ [SpecPhase.design, SpecPhase.tasks] then
      .ok (specs, .failure
        ("Cannot generate tasks in phase: " ++ metadata.current_phase.value)
        (some metadata.current_phase.value) none)
    else if SpecPhase.design ∉ metadata.approved_phases ∧
        metadata.current_phase = SpecPhase.design ∧ auto_approve = false then
      .ok (specs, .failure "Design must be approved before generating tasks"
        (some metadata.current_phase.value)
        (some "Please review and approve design first, or use auto_approve=true"))
    else
      match env.spec_template "tasks" with
      | none => .ok (specs, .failure "Tasks template not found" none none)
      | some template =>
        match env.render template with
        | none => .ok (specs, .failure "Template rendering failed" none none)
        | some content =>
          let dir := (lookupDir specs feature_name).getD SpecDirState.empty
          let specs1 := setDir specs feature_name { dir with tasks_md := some content }
          let metadata1 := { metadata with
            current_phase := SpecPhase.tasks,
            approved_phases :=
              if auto_approve = true ∧ SpecPhase.tasks ∉ metadata.approved_phases
              then metadata.approved_phases ++ [SpecPhase.tasks]
              else metadata.approved_phases }
          match save_metadata specs1 metadata1 now with
          | .error e => .error e
          | .ok specs2 =>
            .ok (specs2, .success feature_name
              (specDirPath feature_name ++ "/tasks.md")
              SpecPhase.tasks.value auto_approve
              "Tasks generated successfully using enhanced template")

/-- Result dictionary of `get_spec_status`: either the status dictionary
or the not-found dictionary `{error, feature_name}`. -/
inductive StatusResult where
  | status (feature_name description current_phase : String)
      (approved_phases : List String) (created_at updated_at : Nat)
      (files_requirements files_design files_tasks : Bool) (spec_dir : String)
  | notFound (error : String) (feature_name : String)
deriving DecidableEq, Repr

/-- Embedding of `SpecWorkflow.get_spec_status` (lines 504-536): read-only; catches the
`FileNotFoundError` of `_load_metadata` and turns it into the error
dictionary; a pydantic validation fault on the stored name propagates. -/
def get_spec_status (specs : Specs) (feature_name : String) :
    Except String StatusResult :=
  match lookupDir specs feature_name with
  | none => .ok (.notFound (spec_not_found_msg feature_name) feature_name)
  | some dir =>
    match dir.metadata with
    | none => .ok (.notFound (spec_not_found_msg feature_name) feature_name)
    | some m =>
      match validate_feature_name m.feature_name with
      | .error e => .error e
      | .ok fn =>
        .ok (.status fn m.description m.current_phase.value
          (m.approved_phases.map SpecPhase.value) m.created_at m.updated_at
          dir.requirements_md.isSome dir.design_md.isSome dir.tasks_md.isSome
          (specDirPath feature_name))

/-- Embedding of `FileSystemManager.list_specs` (`utils/filesystem.py`, lines 242-254):
lists the subdirectories of the specs directory that contain a
`spec.json` file — NOT `metadata.json`, which is the file `spec_init`
writes. -/
def list_specs (specs : Specs) : List String :=
  (specs.filter fun p => p.snd.spec_json.isSome).map Prod.fst

/-! ## Validation workflow (`workflows/validation_workflow.py`) -/

/-- Embedding of `ValidationSeverity` (`models/validation.py`). -/
inductive ValidationSeverity where
  | info
  | warning
  | error
  | critical
deriving DecidableEq, Repr

/-- Embedding of `ValidationIssue` (`models/validation.py`). -/
structure ValidationIssue where
  severity : ValidationSeverity
  message : String
  location : Option String
  suggestion : Option String
deriving DecidableEq, Repr

/-- Embedding of `DesignValidationResult` (`models/validation.py`): the base
`ValidationResult` fields plus the design-specific scores.  The float
scores are modelled as rationals (the exact values the Python expressions
denote); `validated_at` is the threaded timestamp. -/
structure DesignValidationResult where
  validation_type : String
  feature_name : String
  passed : Bool
  issues : List ValidationIssue
  summary : String
  validated_at : Nat
  requirements_coverage : ℚ
  missing_components : List String
  design_completeness : ℚ
deriving DecidableEq, Repr

/-- The `design_checks` mapping of `ValidationWorkflow.validate_design`
(lines 178-186), in insertion order.  Each literal `"X" in design_content`
test is case-SENSITIVE; only the second disjunct lowers the text, and for
`data_models` and `api` the lowered needle is `"model"` resp. `"endpoint"`,
not the topic keyword itself. -/
def design_checks (design_content : String) : List (String × Bool) :=
  [("architecture",
      pyContains design_content "Architecture Overview" ||
      pyContains (pyLower design_content) "architecture"),
   ("components",
      pyContains design_content "Components" ||
      pyContains (pyLower design_content) "component"),
   ("data_models",
      pyContains design_content "Data Models" ||
      pyContains (pyLower design_content) "model"),
   ("api",
      pyContains design_content "API" ||
      pyContains (pyLower design_content) "endpoint"),
   ("security",
      pyContains design_content "Security" ||
      pyContains (pyLower design_content) "security")]

/-- The elements reported missing by `validate_design`. -/
def missing_design_elements (design_content : String) : List String :=
  ((design_checks design_content).filter fun c => c.snd = false).map Prod.fst

/-- The warning issue `validate_design` emits for a missing element. -/
def missing_element_issue (element : String) : ValidationIssue :=
  { severity := .warning,
    message := "Design may be missing " ++ element ++ " section",
    location := some "design.md",
    suggestion := some ("Add detailed " ++ element ++ " information") }

/-- Embedding of `ValidationWorkflow.validate_design` (lines 125-216).  Loads metadata
(raising when absent, like the workflow), then: when `design.md` or
`requirements.md` is missing the Python builds error issues and constructs
`DesignValidationResult` WITHOUT the required `requirements_coverage` and
`design_completeness` fields, so pydantic raises — modelled as
`Except.error`.  With both present it runs the keyword checks, emits one
warning per missing element, and passes iff no error-severity issue was
collected (on this path all issues are warnings). -/
def validate_design (specs : Specs) (feature_name : String) (now : Nat) :
    Except String DesignValidationResult :=
  match load_metadata specs feature_name with
  | .error e => .error e
  | .ok _ =>
    let dir := (lookupDir specs feature_name).getD SpecDirState.empty
    match dir.design_md, dir.requirements_md with
    | some design_content, some _ =>
      let missing := missing_design_elements design_content
      let issues := missing.map missing_element_issue
      .ok { validation_type := "design_validation",
            feature_name := feature_name,
            passed := (issues.filter fun i => i.severity = .error).length = 0,
            issues := issues,
            summary := "Design validation completed with " ++
              toString issues.length ++ " issues",
            validated_at := now,
            requirements_coverage := 85,
            missing_components := missing,
            design_completeness :=
              (((design_checks design_content).length : ℚ) - (missing.length : ℚ)) /
                ((design_checks design_content).length : ℚ) * 100 }
    | _, _ =>
      .error "DesignValidationResult is missing requirements_coverage and design_completeness"

/-- The five topic keywords as the specification states them. -/
def claim_topic_keywords : List String :=
  ["architecture", "components", "data models", "api", "security"]

/-- Modelled from the spec: a case-insensitive scan of the design text for
one topic keyword ("scans design text case-insensitively for five expected
topic keywords").  Stated only to compare the specification wording with
`design_checks`. -/
def claim_topic_present (design_content keyword : String) : Bool :=
  pyContains (pyLower design_content) (pyLower keyword)

/-- Number of the five spec keywords present per the spec wording. -/
def claim_topics_present (design_content : String) : Nat :=
  (claim_topic_keywords.filter (claim_topic_present design_content)).length

/-! ## Sequences of tool operations -/

/-- One invocation of a specification tool. -/
inductive ToolOp where
  | init (feature_name description : String) (now : Nat)
  | genRequirements (feature_name : String) (auto_approve : Bool) (now : Nat)
  | genDesign (feature_name : String) (auto_approve : Bool) (now : Nat)
  | genTasks (feature_name : String) (auto_approve : Bool) (now : Nat)
  | status (feature_name : String)
deriving DecidableEq, Repr

/-- Is this operation a `spec_init` call? -/
def ToolOp.isInit : ToolOp → Bool
  | .init _ _ _ => true
  | _ => false

/-- The specs directory after one tool invocation: a raised fault leaves
the filesystem as the operation left it, and every modelled operation
raises only before its first write, so a fault leaves the state
unchanged. -/
def applyOp (env : TemplateEnv) (specs : Specs) : ToolOp → Specs
  | .init fn d now =>
    match spec_init specs fn d now with
    | .ok (s, _) => s
    | .error _ => specs
  | .genRequirements fn a now =>
    match generate_requirements env specs fn a now with
    | .ok (s, _) => s
    | .error _ => specs
  | .genDesign fn a now =>
    match generate_design env specs fn a now with
    | .ok (s, _) => s
    | .error _ => specs
  | .genTasks fn a now =>
    match generate_tasks env specs fn a now with
    | .ok (s, _) => s
    | .error _ => specs
  | .status _ => specs

/-- The specs directory after a sequence of tool invocations. -/
def runOps (env : TemplateEnv) (specs : Specs) : List ToolOp → Specs
  | [] => specs
  | op :: ops => runOps env (applyOp env specs op) ops

/-- Phase position of the feature stored in directory `name` (`0` when the
directory or its metadata is absent). -/
def phaseIdxAt (specs : Specs) (name : String) : Nat :=
  match lookupDir specs name with
  | some dir =>
    match dir.metadata with
    | some m => m.current_phase.idx
    | none => 0
  | none => 0

/-- Approved phases of the feature stored in directory `name`. -/
def approvedAt (specs : Specs) (name : String) : List SpecPhase :=
  match lookupDir specs name with
  | some dir =>
    match dir.metadata with
    | some m => m.approved_phases
    | none => []
  | none => []

/-- A directory entry whose metadata, when present, names its own
directory with an already-normalized name.  `spec_init` creates exactly
such entries, and the generation operations preserve the shape. -/
def goodEntry (p : String × SpecDirState) : Bool :=
  match p.snd.metadata with
  | none => true
  | some m => m.feature_name == p.fst &&
      (validate_feature_name p.fst == Except.ok p.fst)

/-- Every directory of the specs tree is well-named. -/
def GoodState (specs : Specs) : Prop := ∀ p ∈ specs, goodEntry p = true

instance (specs : Specs) : Decidable (GoodState specs) :=
  List.decidableBAll _ specs

/-- The metadata written by a successful `generate_design`. -/
def designSuccessMetadata (m0 : SpecificationMetadata) (auto : Bool) (now : Nat) :
    SpecificationMetadata :=
  { m0 with
    current_phase := .design,
    approved_phases :=
      if auto = true ∧ SpecPhase.design ∉ m0.approved_phases
      then m0.approved_phases ++ [SpecPhase.design] else m0.approved_phases,
    updated_at := now }

/-- The metadata written by a successful `generate_requirements`. -/
def requirementsSuccessMetadata (m0 : SpecificationMetadata) (auto : Bool) (now : Nat) :
    SpecificationMetadata :=
  { m0 with
    current_phase := .requirements,
    approved_phases :=
      if auto = true ∧ SpecPhase.requirements ∉ m0.approved_phases
      then m0.approved_phases ++ [SpecPhase.requirements] else m0.approved_phases,
    updated_at := now }

/-- The metadata written by a successful `generate_tasks`. -/
def tasksSuccessMetadata (m0 : SpecificationMetadata) (auto : Bool) (now : Nat) :
    SpecificationMetadata :=
  { m0 with
    current_phase := .tasks,
    approved_phases :=
      if auto = true ∧ SpecPhase.tasks ∉ m0.approved_phases
      then m0.approved_phases ++ [SpecPhase.tasks] else m0.approved_phases,
    updated_at := now }

/-- Number of topic checks that pass in `validate_design`. -/
def present_design_topics (design_content : String) : Nat :=
  ((design_checks design_content).filter fun c => c.snd = true).length

/-! ## Concrete fixtures used by witnesses and counterexamples -/

/-- A design text that mentions every spec topic keyword, but only in
lower case and without the word endpoint: the case-sensitive `"API"`
check of the code fails on it. -/
def designTextLower : String := "architecture components data models api security"

/-- A specs tree holding a feature in phase design whose `design.md` is
`designTextLower`. -/
def specsDesignText : Specs :=
  [("feat", ⟨some ⟨"feat", "demo", .design, 0, 1, []⟩, some "REQ",
    some designTextLower, none, none⟩)]

/-- An environment in which every spec template loads and renders. -/
def envOk : TemplateEnv := ⟨fun _ => some "TPL", fun t => some ("OUT:" ++ t)⟩

/-- Metadata of a feature sitting in phase `Requirements` with nothing
approved. -/
def mReq : SpecificationMetadata :=
  { feature_name := "user-auth", description := "OAuth login",
    current_phase := .requirements, created_at := 0, updated_at := 1,
    approved_phases := [] }

/-- Directory of `mReq` after its requirements were generated. -/
def dirReq : SpecDirState := ⟨some mReq, some "R", none, none, none⟩

/-- A specs tree holding only `dirReq`. -/
def specsReq : Specs := [("user-auth", dirReq)]

/-- Metadata of a feature sitting in phase `Completed`. -/
def mDone : SpecificationMetadata :=
  { feature_name := "user-auth", description := "OAuth login",
    current_phase := .completed, created_at := 0, updated_at := 1,
    approved_phases := [] }

/-- Directory and tree for `mDone`. -/
def specsDone : Specs := [("user-auth", ⟨some mDone, some "R", some "D", some "T", none⟩)]

/-- Metadata of a feature sitting in phase `Design` with nothing
approved. -/
def mDes : SpecificationMetadata :=
  { feature_name := "user-auth", description := "OAuth login",
    current_phase := .design, created_at := 0, updated_at := 1,
    approved_phases := [] }

/-- Directory and tree for `mDes`. -/
def dirDes : SpecDirState := ⟨some mDes, some "R", some "D", none, none⟩

def specsDes : Specs := [("user-auth", dirDes)]

/-- Metadata of a feature sitting in phase `Tasks` with nothing
approved. -/
def mTask : SpecificationMetadata :=
  { feature_name := "user-auth", description := "OAuth login",
    current_phase := .tasks, created_at := 0, updated_at := 1,
    approved_phases := [] }

/-- Directory and tree for `mTask`. -/
def dirTask : SpecDirState := ⟨some mTask, some "R", some "D", some "T", none⟩

def specsTask : Specs := [("user-auth", dirTask)]

/-! ## Basic lemmas about the directory map -/

theorem lookupDir_setDir_self (specs : Specs) (name : String) (d : SpecDirState) :
    lookupDir (setDir specs name d) name = some d := by
  induction specs with
  | nil => simp [setDir, lookupDir]
  | cons p rest ih =>
    obtain ⟨n, d0⟩ := p
    by_cases h : n = name <;> simp [setDir, lookupDir, h, ih]

theorem lookupDir_setDir_ne (specs : Specs) (name k : String) (d : SpecDirState)
    (h : k ≠ name) : lookupDir (setDir specs name d) k = lookupDir specs k := by
  induction specs with
  | nil => simp [setDir, lookupDir, Ne.symm h]
  | cons p rest ih =>
    obtain ⟨n, d0⟩ := p
    by_cases hn : n = name
    · subst hn
      simp [setDir, lookupDir, Ne.symm h]
    · simp [setDir, lookupDir, hn, ih]

theorem setDir_setDir (specs : Specs) (name : String) (d1 d2 : SpecDirState) :
    setDir (setDir specs name d1) name d2 = setDir specs name d2 := by
  induction specs with
  | nil => simp [setDir]
  | cons p rest ih =>
    obtain ⟨n, d0⟩ := p
    by_cases h : n = name <;> simp [setDir, h, ih]

theorem lookupDir_mem {specs : Specs} {n : String} {d : SpecDirState}
    (h : lookupDir specs n = some d) : (n, d) ∈ specs := by
  induction specs with
  | nil => simp [lookupDir] at h
  | cons p rest ih =>
    obtain ⟨n0, d0⟩ := p
    by_cases hn : n0 = n
    · subst hn
      simp [lookupDir] at h
      simp [h]
    · simp [lookupDir, hn] at h
      exact List.mem_cons_of_mem _ (ih h)

theorem goodState_setDir {specs : Specs} {name : String} {d : SpecDirState}
    (hs : GoodState specs) (hd : goodEntry (name, d) = true) :
    GoodState (setDir specs name d) := by
  induction specs with
  | nil =>
    intro p hp
    simp [setDir] at hp
    simpa [hp]
  | cons q rest ih =>
    obtain ⟨n0, d0⟩ := q
    have hs0 : goodEntry (n0, d0) = true := hs _ (List.mem_cons_self _ _)
    have hsr : GoodState rest := fun p hp => hs p (List.mem_cons_of_mem _ hp)
    intro p hp
    by_cases hn : n0 = name
    · subst hn
      simp [setDir] at hp
      rcases hp with hp | hp
      · simpa [hp]
      · exact hsr p hp
    · simp [setDir, hn] at hp
      rcases hp with hp | hp
      · simpa [hp]
      · exact ih hsr p hp

/-- Unfolding `load_metadata` when the directory holds metadata whose
stored name is a fixed point of the validator. -/
theorem load_metadata_of {specs : Specs} {name : String} {dir : SpecDirState}
    {m : SpecificationMetadata} (h1 : lookupDir specs name = some dir)
    (h2 : dir.metadata = some m)
    (h3 : validate_feature_name m.feature_name = .ok m.feature_name) :
    load_metadata specs name = .ok m := by
  simp only [load_metadata, h1, h2, h3]

/-- In a well-named tree, loaded metadata names the directory it was
loaded from. -/
theorem goodState_load {specs : Specs} {name : String} {dir : SpecDirState}
    {m : SpecificationMetadata} (hs : GoodState specs)
    (h1 : lookupDir specs name = some dir) (h2 : dir.metadata = some m) :
    m.feature_name = name ∧ validate_feature_name name = .ok name ∧
      load_metadata specs name = .ok m := by
  have hmem := lookupDir_mem h1
  have hg := hs _ hmem
  simp [goodEntry, h2] at hg
  obtain ⟨hfn, hval⟩ := hg
  refine ⟨hfn, hval, load_metadata_of h1 h2 ?_⟩
  rw [hfn, hval]

/-- On a well-named tree, `generate_design` either raises, or returns a
failure with the filesystem untouched, or succeeds from a phase inside the
window and replaces the feature directory with the rendered artifact and
the advanced metadata. -/
theorem generate_design_shape (env : TemplateEnv) (specs : Specs) (name : String)
    (auto : Bool) (now : Nat) (hs : GoodState specs) :
    (∃ e, generate_design env specs name auto now = .error e) ∨
    (∃ r, generate_design env specs name auto now = .ok (specs, r)) ∨
    (∃ dir m0 content r, lookupDir specs name = some dir ∧ dir.metadata = some m0 ∧
      m0.feature_name = name ∧ validate_feature_name name = .ok name ∧
      m0.current_phase ∈ [SpecPhase.requirements, SpecPhase.design] ∧
      generate_design env specs name auto now =
        .ok (setDir specs name
          { dir with
            design_md := some content,
            metadata := some (designSuccessMetadata m0 auto now) }, r)) := by
  cases hdir : lookupDir specs name with
  | none =>
    left
    refine ⟨spec_not_found_msg name, ?_⟩
    simp [generate_design, load_metadata, hdir]
  | some dir =>
    cases hmeta : dir.metadata with
    | none =>
      left
      refine ⟨spec_not_found_msg name, ?_⟩
      simp [generate_design, load_metadata, hdir, hmeta]
    | some m0 =>
      obtain ⟨hfn, hval, hload⟩ := goodState_load hs hdir hmeta
      by_cases hph : m0.current_phase ∈ [SpecPhase.requirements, SpecPhase.design]
      · by_cases hgate : SpecPhase.requirements ∉ m0.approved_phases ∧
            m0.current_phase = SpecPhase.requirements ∧ auto = false
        · right; left
          refine ⟨.failure "Requirements must be approved before generating design"
            (some m0.current_phase.value)
            (some "Please review and approve requirements first, or use auto_approve=true"), ?_⟩
          simp [generate_design, hload, hph, hgate]
        · cases htpl : env.spec_template "design" with
          | none =>
            right; left
            exact ⟨.failure "Design template not found" none none, by
              simp [generate_design, hload, hph, hgate, htpl]⟩
          | some template =>
            cases hrender : env.render template with
            | none =>
              right; left
              exact ⟨.failure "Template rendering failed" none none, by
                simp [generate_design, hload, hph, hgate, htpl, hrender]⟩
            | some content =>
              right; right
              refine ⟨dir, m0, content,
                .success name (specDirPath name ++ "/design.md")
                  SpecPhase.design.value auto
                  "Design generated successfully using enhanced template",
                rfl, hmeta, hfn, hval, hph, ?_⟩
              have hsave : save_metadata
                  (setDir specs name { dir with design_md := some content })
                  { m0 with
                    current_phase := .design,
                    approved_phases :=
                      if auto = true ∧ SpecPhase.design ∉ m0.approved_phases
                      then m0.approved_phases ++ [SpecPhase.design]
                      else m0.approved_phases } now =
                  .ok (setDir specs name
                    { dir with
                      design_md := some content,
                      metadata := some (designSuccessMetadata m0 auto now) }) := by
                simp [save_metadata, hfn, lookupDir_setDir_self, setDir_setDir,
                  designSuccessMetadata]
              simp [generate_design, hload, hph, hgate, htpl, hrender, hdir, hsave]
      · right; left
        refine ⟨.failure
          ("Cannot generate design in phase: " ++ m0.current_phase.value)
          (some m0.current_phase.value) none, ?_⟩
        simp [generate_design, hload, hph]

/-- Analogue of `generate_design_shape` for `generate_requirements`
(window `{Initialized, Requirements}`, no approval gate). -/
theorem generate_requirements_shape (env : TemplateEnv) (specs : Specs) (name : String)
    (auto : Bool) (now : Nat) (hs : GoodState specs) :
    (∃ e, generate_requirements env specs name auto now = .error e) ∨
    (∃ r, generate_requirements env specs name auto now = .ok (specs, r)) ∨
    (∃ dir m0 content r, lookupDir specs name = some dir ∧ dir.metadata = some m0 ∧
      m0.feature_name = name ∧ validate_feature_name name = .ok name ∧
      m0.current_phase ∈ [SpecPhase.initialized, SpecPhase.requirements] ∧
      generate_requirements env specs name auto now =
        .ok (setDir specs name
          { dir with
            requirements_md := some content,
            metadata := some (requirementsSuccessMetadata m0 auto now) }, r)) := by
  cases hdir : lookupDir specs name with
  | none =>
    left
    refine ⟨spec_not_found_msg name, ?_⟩
    simp [generate_requirements, load_metadata, hdir]
  | some dir =>
    cases hmeta : dir.metadata with
    | none =>
      left
      refine ⟨spec_not_found_msg name, ?_⟩
      simp [generate_requirements, load_metadata, hdir, hmeta]
    | some m0 =>
      obtain ⟨hfn, hval, hload⟩ := goodState_load hs hdir hmeta
      by_cases hph : m0.current_phase ∈ [SpecPhase.initialized, SpecPhase.requirements]
      · cases htpl : env.spec_template "requirements" with
        | none =>
          right; left
          exact ⟨.failure "Requirements template not found" none none, by
            simp [generate_requirements, hload, hph, htpl]⟩
        | some template =>
          cases hrender : env.render template with
          | none =>
            right; left
            exact ⟨.failure "Template rendering failed" none none, by
              simp [generate_requirements, hload, hph, htpl, hrender]⟩
          | some content =>
            right; right
            refine ⟨dir, m0, content,
              .success name (specDirPath name ++ "/requirements.md")
                SpecPhase.requirements.value auto
                "Requirements generated successfully using enhanced EARS template",
              rfl, hmeta, hfn, hval, hph, ?_⟩
            have hsave : save_metadata
                (setDir specs name { dir with requirements_md := some content })
                { m0 with
                  current_phase := .requirements,
                  approved_phases :=
                    if auto = true ∧ SpecPhase.requirements ∉ m0.approved_phases
                    then m0.approved_phases ++ [SpecPhase.requirements]
                    else m0.approved_phases } now =
                .ok (setDir specs name
                  { dir with
                    requirements_md := some content,
                    metadata := some (requirementsSuccessMetadata m0 auto now) }) := by
              simp [save_metadata, hfn, lookupDir_setDir_self, setDir_setDir,
                requirementsSuccessMetadata]
            simp [generate_requirements, hload, hph, htpl, hrender, hdir, hsave]
      · right; left
        refine ⟨.failure
          ("Cannot generate requirements in phase: " ++ m0.current_phase.value)
          (some m0.current_phase.value) none, ?_⟩
        simp [generate_requirements, hload, hph]

/-- Analogue of `generate_design_shape` for `generate_tasks`
(window `{Design, Tasks}`, approval gate on `Design`). -/
theorem generate_tasks_shape (env : TemplateEnv) (specs : Specs) (name : String)
    (auto : Bool) (now : Nat) (hs : GoodState specs) :
    (∃ e, generate_tasks env specs name auto now = .error e) ∨
    (∃ r, generate_tasks env specs name auto now = .ok (specs, r)) ∨
    (∃ dir m0 content r, lookupDir specs name = some dir ∧ dir.metadata = some m0 ∧
      m0.feature_name = name ∧ validate_feature_name name = .ok name ∧
      m0.current_phase ∈ [SpecPhase.design, SpecPhase.tasks] ∧
      generate_tasks env specs name auto now =
        .ok (setDir specs name
          { dir with
            tasks_md := some content,
            metadata := some (tasksSuccessMetadata m0 auto now) }, r)) := by
  cases hdir : lookupDir specs name with
  | none =>
    left
    refine ⟨spec_not_found_msg name, ?_⟩
    simp [generate_tasks, load_metadata, hdir]
  | some dir =>
    cases hmeta : dir.metadata with
    | none =>
      left
      refine ⟨spec_not_found_msg name, ?_⟩
      simp [generate_tasks, load_metadata, hdir, hmeta]
    | some m0 =>
      obtain ⟨hfn, hval, hload⟩ := goodState_load hs hdir hmeta
      by_cases hph : m0.current_phase ∈ [SpecPhase.design, SpecPhase.tasks]
      · by_cases hgate : SpecPhase.design ∉ m0.approved_phases ∧
            m0.current_phase = SpecPhase.design ∧ auto = false
        · right; left
          refine ⟨.failure "Design must be approved before generating tasks"
            (some m0.current_phase.value)
            (some "Please review and approve design first, or use auto_approve=true"), ?_⟩
          simp [generate_tasks, hload, hph, hgate]
        · cases htpl : env.spec_template "tasks" with
          | none =>
            right; left
            exact ⟨.failure "Tasks template not found" none none, by
              simp [generate_tasks, hload, hph, hgate, htpl]⟩
          | some template =>
            cases hrender : env.render template with
            | none =>
              right; left
              exact ⟨.failure "Template rendering failed" none none, by
                simp [generate_tasks, hload, hph, hgate, htpl, hrender]⟩
            | some content =>
              right; right
              refine ⟨dir, m0, content,
                .success name (specDirPath name ++ "/tasks.md")
                  SpecPhase.tasks.value auto
                  "Tasks generated successfully using enhanced template",
                rfl, hmeta, hfn, hval, hph, ?_⟩
              have hsave : save_metadata
                  (setDir specs name { dir with tasks_md := some content })
                  { m0 with
                    current_phase := .tasks,
                    approved_phases :=
                      if auto = true ∧ SpecPhase.tasks ∉ m0.approved_phases
                      then m0.approved_phases ++ [SpecPhase.tasks]
                      else m0.approved_phases } now =
                  .ok (setDir specs name
                    { dir with
                      tasks_md := some content,
                      metadata := some (tasksSuccessMetadata m0 auto now) }) := by
                simp [save_metadata, hfn, lookupDir_setDir_self, setDir_setDir,
                  tasksSuccessMetadata]
              simp [generate_tasks, hload, hph, hgate, htpl, hrender, hdir, hsave]
      · right; left
        refine ⟨.failure
          ("Cannot generate tasks in phase: " ++ m0.current_phase.value)
          (some m0.current_phase.value) none, ?_⟩
        simp [generate_tasks, hload, hph]

/-- A single non-`init` tool invocation keeps the tree well-named, never
lowers the phase position of any feature, and never removes an approved
phase. -/
theorem applyOp_mono (env : TemplateEnv) (specs : Specs) (op : ToolOp)
    (hs : GoodState specs) (hni : op.isInit = false) :
    GoodState (applyOp env specs op) ∧
    ∀ k, phaseIdxAt specs k ≤ phaseIdxAt (applyOp env specs op) k ∧
      approvedAt specs k ⊆ approvedAt (applyOp env specs op) k := by
  cases op with
  | init fn d now => simp [ToolOp.isInit] at hni
  | status fn => exact ⟨hs, fun k => ⟨le_refl _, List.Subset.refl _⟩⟩
  | genRequirements name auto now =>
    rcases generate_requirements_shape env specs name auto now hs with
      ⟨e, he⟩ | ⟨r, hr⟩ | ⟨dir, m0, content, r, hdir, hmeta, hfn, hval, hph, heq⟩
    · simp only [applyOp, he]
      exact ⟨hs, fun k => ⟨le_refl _, List.Subset.refl _⟩⟩
    · simp only [applyOp, hr]
      exact ⟨hs, fun k => ⟨le_refl _, List.Subset.refl _⟩⟩
    · simp only [applyOp, heq]
      constructor
      · refine goodState_setDir hs ?_
        simp [goodEntry, requirementsSuccessMetadata, hfn, hval]
      · intro k
        by_cases hk : k = name
        · subst hk
          simp only [phaseIdxAt, approvedAt, lookupDir_setDir_self, hdir, hmeta,
            requirementsSuccessMetadata]
          constructor
          · simp at hph
            rcases hph with h | h <;> simp [h, SpecPhase.idx]
          · split
            · exact List.subset_append_left _ _
            · exact List.Subset.refl _
        · simp only [phaseIdxAt, approvedAt, lookupDir_setDir_ne _ _ _ _ hk]
          exact ⟨le_refl _, List.Subset.refl _⟩
  | genDesign name auto now =>
    rcases generate_design_shape env specs name auto now hs with
      ⟨e, he⟩ | ⟨r, hr⟩ | ⟨dir, m0, content, r, hdir, hmeta, hfn, hval, hph, heq⟩
    · simp only [applyOp, he]
      exact ⟨hs, fun k => ⟨le_refl _, List.Subset.refl _⟩⟩
    · simp only [applyOp, hr]
      exact ⟨hs, fun k => ⟨le_refl _, List.Subset.refl _⟩⟩
    · simp only [applyOp, heq]
      constructor
      · refine goodState_setDir hs ?_
        simp [goodEntry, designSuccessMetadata, hfn, hval]
      · intro k
        by_cases hk : k = name
        · subst hk
          simp only [phaseIdxAt, approvedAt, lookupDir_setDir_self, hdir, hmeta,
            designSuccessMetadata]
          constructor
          · simp at hph
            rcases hph with h | h <;> simp [h, SpecPhase.idx]
          · split
            · exact List.subset_append_left _ _
            · exact List.Subset.refl _
        · simp only [phaseIdxAt, approvedAt, lookupDir_setDir_ne _ _ _ _ hk]
          exact ⟨le_refl _, List.Subset.refl _⟩
  | genTasks name auto now =>
    rcases generate_tasks_shape env specs name auto now hs with
      ⟨e, he⟩ | ⟨r, hr⟩ | ⟨dir, m0, content, r, hdir, hmeta, hfn, hval, hph, heq⟩
    · simp only [applyOp, he]
      exact ⟨hs, fun k => ⟨le_refl _, List.Subset.refl _⟩⟩
    · simp only [applyOp, hr]
      exact ⟨hs, fun k => ⟨le_refl _, List.Subset.refl _⟩⟩
    · simp only [applyOp, heq]
      constructor
      · refine goodState_setDir hs ?_
        simp [goodEntry, tasksSuccessMetadata, hfn, hval]
      · intro k
        by_cases hk : k = name
        · subst hk
          simp only [phaseIdxAt, approvedAt, lookupDir_setDir_self, hdir, hmeta,
            tasksSuccessMetadata]
          constructor
          · simp at hph
            rcases hph with h | h <;> simp [h, SpecPhase.idx]
          · split
            · exact List.subset_append_left _ _
            · exact List.Subset.refl _
        · simp only [phaseIdxAt, approvedAt, lookupDir_setDir_ne _ _ _ _ hk]
          exact ⟨le_refl _, List.Subset.refl _⟩

/-- Monotonicity across a sequence of non-`init` tool invocations. -/
theorem runOps_mono (env : TemplateEnv) (ops : List ToolOp) :
    ∀ specs, GoodState specs → (∀ op ∈ ops, op.isInit = false) →
    GoodState (runOps env specs ops) ∧
    ∀ k, phaseIdxAt specs k ≤ phaseIdxAt (runOps env specs ops) k ∧
      approvedAt specs k ⊆ approvedAt (runOps env specs ops) k := by
  induction ops with
  | nil =>
    intro specs hs _
    exact ⟨hs, fun k => ⟨le_refl _, List.Subset.refl _⟩⟩
  | cons op ops ih =>
    intro specs hs hni
    obtain ⟨hg1, hm1⟩ := applyOp_mono env specs op hs (hni op (List.mem_cons_self _ _))
    obtain ⟨hg2, hm2⟩ := ih _ hg1 (fun o ho => hni o (List.mem_cons_of_mem _ ho))
    refine ⟨hg2, fun k => ⟨le_trans (hm1 k).1 (hm2 k).1,
      List.Subset.trans (hm1 k).2 (hm2 k).2⟩⟩

/-- A `generate_requirements` call that returns a failure dictionary
leaves the filesystem untouched. -/
theorem generate_requirements_failure_frame (env : TemplateEnv) (specs : Specs)
    (name : String) (auto : Bool) (now : Nat) (specs2 : Specs) (e : String)
    (cp msg : Option String)
    (h : generate_requirements env specs name auto now = .ok (specs2, .failure e cp msg)) :
    specs2 = specs := by
  unfold generate_requirements at h
  repeat' split at h
  all_goals try simp_all
  all_goals revert h
  all_goals split <;> (intro h; simp at h)

/-- A `generate_design` call that returns a failure dictionary leaves the
filesystem untouched. -/
theorem generate_design_failure_frame (env : TemplateEnv) (specs : Specs)
    (name : String) (auto : Bool) (now : Nat) (specs2 : Specs) (e : String)
    (cp msg : Option String)
    (h : generate_design env specs name auto now = .ok (specs2, .failure e cp msg)) :
    specs2 = specs := by
  unfold generate_design at h
  repeat' split at h
  all_goals try simp_all
  all_goals revert h
  all_goals split <;> (intro h; simp at h)

/-- A `generate_tasks` call that returns a failure dictionary leaves the
filesystem untouched. -/
theorem generate_tasks_failure_frame (env : TemplateEnv) (specs : Specs)
    (name : String) (auto : Bool) (now : Nat) (specs2 : Specs) (e : String)
    (cp msg : Option String)
    (h : generate_tasks env specs name auto now = .ok (specs2, .failure e cp msg)) :
    specs2 = specs := by
  unfold generate_tasks at h
  repeat' split at h
  all_goals try simp_all
  all_goals revert h
  all_goals split <;> (intro h; simp at h)

/-- The check table always has five entries. -/
theorem design_checks_length (d : String) : (design_checks d).length = 5 := rfl

/-- Every issue built from a missing element has warning severity, so the
error filter is empty. -/
theorem filter_error_issues (l : List String) :
    ((l.map missing_element_issue).filter
      fun i => i.severity = ValidationSeverity.error) = [] := by
  induction l with
  | nil => rfl
  | cons a l ih => simp [missing_element_issue, ih]

/-- Passing and failing checks partition the check table. -/
theorem filter_true_false_length (l : List (String × Bool)) :
    (l.filter fun c => c.snd = true).length +
      ((l.filter fun c => c.snd = false).map Prod.fst).length = l.length := by
  induction l with
  | nil => rfl
  | cons a l ih =>
    rcases a with ⟨s, b⟩
    cases b <;> simp [List.filter] at ih ⊢ <;> omega

/-- Evaluation of `validate_design` when metadata and both documents are
present. -/
theorem validate_design_eval (specs : Specs) (name : String) (dir : SpecDirState)
    (m : SpecificationMetadata) (d r : String) (now : Nat)
    (hdir : lookupDir specs name = some dir) (hm : dir.metadata = some m)
    (hv : validate_feature_name m.feature_name = .ok m.feature_name)
    (hd : dir.design_md = some d) (hr : dir.requirements_md = some r) :
    validate_design specs name now =
      .ok { validation_type := "design_validation", feature_name := name,
            passed := true,
            issues := (missing_design_elements d).map missing_element_issue,
            summary := "Design validation completed with " ++
              toString (missing_design_elements d).length ++ " issues",
            validated_at := now,
            requirements_coverage := 85,
            missing_components := missing_design_elements d,
            design_completeness :=
              ((5 : ℚ) - ((missing_design_elements d).length : ℚ)) / 5 * 100 } := by
  have hload := load_metadata_of hdir hm hv
  simp [validate_design, hload, hdir, hd, hr, filter_error_issues,
    List.length_map, design_checks_length]

/-! ## Claim theorems -/

/-- C1: for every feature whose metadata has `current_phase = Requirements`
and `Requirements` not in `approved_phases`, `generate_design` with
`auto_approve = false` returns the `ApprovalRequiredError`-style failure
and mutates nothing — the specs tree (metadata and `design.md`) is
returned unchanged; moreover, any failure outcome of `generate_design`
leaves the tree unchanged, so metadata is persisted only after all checks,
template resolution and rendering have succeeded. -/
theorem c1_design_gate_blocks_without_mutation
    (env : TemplateEnv) (specs : Specs) (name : String) (dir : SpecDirState)
    (m : SpecificationMetadata) (now : Nat)
    (hdir : lookupDir specs name = some dir) (hm : dir.metadata = some m)
    (hv : validate_feature_name m.feature_name = .ok m.feature_name)
    (hph : m.current_phase = SpecPhase.requirements)
    (happ : SpecPhase.requirements ∉ m.approved_phases) :
    generate_design env specs name false now =
      .ok (specs, .failure "Requirements must be approved before generating design"
        (some "requirements")
        (some "Please review and approve requirements first, or use auto_approve=true")) ∧
    (∀ auto now2 specs2 e cp msg,
      generate_design env specs name auto now2 = .ok (specs2, .failure e cp msg) →
      specs2 = specs) := by
  have hload := load_metadata_of hdir hm hv
  constructor
  · simp [generate_design, hload, hph, happ, SpecPhase.value]
  · intro auto now2 specs2 e cp msg h
    exact generate_design_failure_frame env specs name auto now2 specs2 e cp msg h

/-- Witness for C1 at a concrete feature in phase `Requirements` with an
empty approval list. -/
theorem c1_witness :
    (lookupDir specsReq "user-auth" = some dirReq ∧ dirReq.metadata = some mReq ∧
      validate_feature_name mReq.feature_name = .ok mReq.feature_name ∧
      mReq.current_phase = SpecPhase.requirements ∧
      SpecPhase.requirements ∉ mReq.approved_phases) ∧
    generate_design envOk specsReq "user-auth" false 7 =
      .ok (specsReq, .failure "Requirements must be approved before generating design"
        (some "requirements")
        (some "Please review and approve requirements first, or use auto_approve=true")) :=
  ⟨⟨by decide, by decide, by decide, by decide, by decide⟩,
    (c1_design_gate_blocks_without_mutation envOk specsReq "user-auth" dirReq mReq 7
      (by decide) (by decide) (by decide) (by decide) (by decide)).1⟩

/-- C3: in the same state (phase `Requirements`, `Requirements` not
approved), `generate_design` with `auto_approve = true` succeeds, sets
`current_phase` to `Design`, and appends exactly `Design` — never
`Requirements` or any other phase — to `approved_phases`, and only when
`Design` is not already a member.  (The hypotheses on the template
environment record that the design template loads and renders, which for
the spec templates always holds through the hardcoded fallback.) -/
theorem c3_auto_approve_appends_design
    (env : TemplateEnv) (specs : Specs) (name : String) (dir : SpecDirState)
    (m : SpecificationMetadata) (now : Nat) (t content : String)
    (hdir : lookupDir specs name = some dir) (hm : dir.metadata = some m)
    (hfn : m.feature_name = name)
    (hv : validate_feature_name name = .ok name)
    (hph : m.current_phase = SpecPhase.requirements)
    (happ : SpecPhase.requirements ∉ m.approved_phases)
    (ht : env.spec_template "design" = some t)
    (hr : env.render t = some content) :
    generate_design env specs name true now =
      .ok (setDir specs name
        { dir with
          design_md := some content,
          metadata := some { m with
            current_phase := SpecPhase.design,
            approved_phases :=
              if SpecPhase.design ∈ m.approved_phases then m.approved_phases
              else m.approved_phases ++ [SpecPhase.design],
            updated_at := now } },
        .success name (specDirPath name ++ "/design.md") "design" true
          "Design generated successfully using enhanced template") := by
  have hv' : validate_feature_name m.feature_name = .ok m.feature_name := by
    rw [hfn]; exact hv
  have hload := load_metadata_of hdir hm hv'
  by_cases hd : SpecPhase.design ∈ m.approved_phases <;>
    simp [generate_design, hload, hph, happ, ht, hr, hdir, save_metadata, hfn,
      lookupDir_setDir_self, setDir_setDir, SpecPhase.value, hd]

/-- Witness for C3 at the same concrete feature. -/
theorem c3_witness :
    (lookupDir specsReq "user-auth" = some dirReq ∧ dirReq.metadata = some mReq ∧
      mReq.feature_name = "user-auth" ∧
      validate_feature_name "user-auth" = .ok "user-auth" ∧
      mReq.current_phase = SpecPhase.requirements ∧
      SpecPhase.requirements ∉ mReq.approved_phases ∧
      envOk.spec_template "design" = some "TPL" ∧
      envOk.render "TPL" = some "OUT:TPL") ∧
    generate_design envOk specsReq "user-auth" true 7 =
      .ok (setDir specsReq "user-auth"
        { dirReq with
          design_md := some "OUT:TPL",
          metadata := some { mReq with
            current_phase := SpecPhase.design,
            approved_phases :=
              if SpecPhase.design ∈ mReq.approved_phases then mReq.approved_phases
              else mReq.approved_phases ++ [SpecPhase.design],
            updated_at := 7 } },
        .success "user-auth" (specDirPath "user-auth" ++ "/design.md") "design" true
          "Design generated successfully using enhanced template") :=
  ⟨⟨by decide, by decide, by decide, by decide, by decide, by decide, rfl, rfl⟩,
    c3_auto_approve_appends_design envOk specsReq "user-auth" dirReq mReq 7 "TPL" "OUT:TPL"
      (by decide) (by decide) (by decide) (by decide) (by decide) (by decide) rfl rfl⟩

/-- C5: each generation operation succeeds only when the current phase is
the phase before its own or its own; for every other current phase it
returns the `PhaseError`-style failure dictionary whose error message
states the current phase (and carries it in `current_phase`), with the
specs tree unchanged. -/
theorem c5_phase_windows
    (env : TemplateEnv) (specs : Specs) (name : String) (dir : SpecDirState)
    (m : SpecificationMetadata) (auto : Bool) (now : Nat)
    (hdir : lookupDir specs name = some dir) (hm : dir.metadata = some m)
    (hv : validate_feature_name m.feature_name = .ok m.feature_name) :
    (m.current_phase ∉ [SpecPhase.initialized, SpecPhase.requirements] →
      generate_requirements env specs name auto now =
        .ok (specs, .failure
          ("Cannot generate requirements in phase: " ++ m.current_phase.value)
          (some m.current_phase.value) none)) ∧
    (∀ specs2 fn f cp ap msg,
      generate_requirements env specs name auto now = .ok (specs2, .success fn f cp ap msg) →
      m.current_phase ∈ [SpecPhase.initialized, SpecPhase.requirements]) ∧
    (m.current_phase ∉ [SpecPhase.requirements, SpecPhase.design] →
      generate_design env specs name auto now =
        .ok (specs, .failure
          ("Cannot generate design in phase: " ++ m.current_phase.value)
          (some m.current_phase.value) none)) ∧
    (∀ specs2 fn f cp ap msg,
      generate_design env specs name auto now = .ok (specs2, .success fn f cp ap msg) →
      m.current_phase ∈ [SpecPhase.requirements, SpecPhase.design]) ∧
    (m.current_phase ∉ [SpecPhase.design, SpecPhase.tasks] →
      generate_tasks env specs name auto now =
        .ok (specs, .failure
          ("Cannot generate tasks in phase: " ++ m.current_phase.value)
          (some m.current_phase.value) none)) ∧
    (∀ specs2 fn f cp ap msg,
      generate_tasks env specs name auto now = .ok (specs2, .success fn f cp ap msg) →
      m.current_phase ∈ [SpecPhase.design, SpecPhase.tasks]) := by
  have hload := load_metadata_of hdir hm hv
  refine ⟨?_, ?_, ?_, ?_, ?_, ?_⟩
  · intro hph
    simp [generate_requirements, hload, hph]
  · intro specs2 fn f cp ap msg h
    by_contra hph
    simp [generate_requirements, hload, hph] at h
  · intro hph
    simp [generate_design, hload, hph]
  · intro specs2 fn f cp ap msg h
    by_contra hph
    simp [generate_design, hload, hph] at h
  · intro hph
    simp [generate_tasks, hload, hph]
  · intro specs2 fn f cp ap msg h
    by_contra hph
    simp [generate_tasks, hload, hph] at h

/-- Witness for C5 at a concrete feature in phase `Completed`, outside all
three windows. -/
theorem c5_witness :
    (lookupDir specsDone "user-auth" = some ⟨some mDone, some "R", some "D", some "T", none⟩ ∧
      (⟨some mDone, some "R", some "D", some "T", none⟩ : SpecDirState).metadata = some mDone ∧
      validate_feature_name mDone.feature_name = .ok mDone.feature_name ∧
      mDone.current_phase ∉ [SpecPhase.initialized, SpecPhase.requirements]) ∧
    generate_requirements envOk specsDone "user-auth" false 7 =
      .ok (specsDone, .failure
        ("Cannot generate requirements in phase: " ++ mDone.current_phase.value)
        (some mDone.current_phase.value) none) :=
  ⟨⟨by decide, by decide, by decide, by decide⟩,
    (c5_phase_windows envOk specsDone "user-auth"
      ⟨some mDone, some "R", some "D", some "T", none⟩ mDone false 7
      (by decide) (by decide) (by decide)).1 (by decide)⟩

/-- C9: regeneration inside a phase is never blocked by a missing
approval: with `current_phase = Design` (resp. `Tasks`) and the preceding
phase absent from `approved_phases`, `generate_design`
(resp. `generate_tasks`) with `auto_approve = false` succeeds, because the
approval gate is evaluated only when the current phase equals the
preceding phase. -/
theorem c9_in_phase_regen_skips_gate :
    (∀ (env : TemplateEnv) (specs : Specs) (name : String) (dir : SpecDirState)
        (m : SpecificationMetadata) (now : Nat) (t content : String),
      lookupDir specs name = some dir → dir.metadata = some m →
      m.feature_name = name → validate_feature_name name = .ok name →
      m.current_phase = SpecPhase.design →
      SpecPhase.requirements ∉ m.approved_phases →
      env.spec_template "design" = some t → env.render t = some content →
      generate_design env specs name false now =
        .ok (setDir specs name
          { dir with
            design_md := some content,
            metadata := some { m with
              current_phase := SpecPhase.design,
              approved_phases := m.approved_phases,
              updated_at := now } },
          .success name (specDirPath name ++ "/design.md") "design" false
            "Design generated successfully using enhanced template")) ∧
    (∀ (env : TemplateEnv) (specs : Specs) (name : String) (dir : SpecDirState)
        (m : SpecificationMetadata) (now : Nat) (t content : String),
      lookupDir specs name = some dir → dir.metadata = some m →
      m.feature_name = name → validate_feature_name name = .ok name →
      m.current_phase = SpecPhase.tasks →
      SpecPhase.design ∉ m.approved_phases →
      env.spec_template "tasks" = some t → env.render t = some content →
      generate_tasks env specs name false now =
        .ok (setDir specs name
          { dir with
            tasks_md := some content,
            metadata := some { m with
              current_phase := SpecPhase.tasks,
              approved_phases := m.approved_phases,
              updated_at := now } },
          .success name (specDirPath name ++ "/tasks.md") "tasks" false
            "Tasks generated successfully using enhanced template")) := by
  constructor
  · intro env specs name dir m now t content hdir hm hfn hv hph happ ht hr
    have hv' : validate_feature_name m.feature_name = .ok m.feature_name := by
      rw [hfn]; exact hv
    have hload := load_metadata_of hdir hm hv'
    simp [generate_design, hload, hph, happ, ht, hr, hdir, save_metadata, hfn,
      lookupDir_setDir_self, setDir_setDir, SpecPhase.value]
  · intro env specs name dir m now t content hdir hm hfn hv hph happ ht hr
    have hv' : validate_feature_name m.feature_name = .ok m.feature_name := by
      rw [hfn]; exact hv
    have hload := load_metadata_of hdir hm hv'
    simp [generate_tasks, hload, hph, happ, ht, hr, hdir, save_metadata, hfn,
      lookupDir_setDir_self, setDir_setDir, SpecPhase.value]

/-- Witness for C9 at concrete features in phases `Design` and `Tasks`
with empty approval lists. -/
theorem c9_witness :
    (lookupDir specsDes "user-auth" = some dirDes ∧ dirDes.metadata = some mDes ∧
      mDes.current_phase = SpecPhase.design ∧
      SpecPhase.requirements ∉ mDes.approved_phases) ∧
    generate_design envOk specsDes "user-auth" false 9 =
      .ok (setDir specsDes "user-auth"
        { dirDes with
          design_md := some "OUT:TPL",
          metadata := some { mDes with
            current_phase := SpecPhase.design,
            approved_phases := mDes.approved_phases,
            updated_at := 9 } },
        .success "user-auth" (specDirPath "user-auth" ++ "/design.md") "design" false
          "Design generated successfully using enhanced template") ∧
    generate_tasks envOk specsTask "user-auth" false 9 =
      .ok (setDir specsTask "user-auth"
        { dirTask with
          tasks_md := some "OUT:TPL",
          metadata := some { mTask with
            current_phase := SpecPhase.tasks,
            approved_phases := mTask.approved_phases,
            updated_at := 9 } },
        .success "user-auth" (specDirPath "user-auth" ++ "/tasks.md") "tasks" false
          "Tasks generated successfully using enhanced template") :=
  ⟨⟨by decide, by decide, by decide, by decide⟩,
    c9_in_phase_regen_skips_gate.1 envOk specsDes "user-auth" dirDes mDes 9 "TPL" "OUT:TPL"
      (by decide) (by decide) (by decide) (by decide) (by decide) (by decide) rfl rfl,
    c9_in_phase_regen_skips_gate.2 envOk specsTask "user-auth" dirTask mTask 9 "TPL" "OUT:TPL"
      (by decide) (by decide) (by decide) (by decide) (by decide) (by decide) rfl rfl⟩

/-- C2 (amended): across any sequence of `generate_requirements`,
`generate_design`, `generate_tasks` and `get_spec_status` invocations —
i.e. excluding `spec_init`, whose re-run on an existing feature overwrites
the metadata — `current_phase` never moves to an earlier position of the
lifecycle order and `approved_phases` never loses a member, starting from
any tree whose directories are well-named (as `spec_init` creates them). -/
theorem c2_monotonic_without_reinit (env : TemplateEnv) (ops : List ToolOp)
    (specs : Specs) (k : String) (hs : GoodState specs)
    (hni : ∀ op ∈ ops, op.isInit = false) :
    phaseIdxAt specs k ≤ phaseIdxAt (runOps env specs ops) k ∧
    approvedAt specs k ⊆ approvedAt (runOps env specs ops) k :=
  (runOps_mono env ops specs hs hni).2 k

/-- Counterexample to C2 as stated: a sequence that ends by re-running
`spec_init` takes the feature from phase position 1 (`Requirements`) back
to 0 (`Initialized`) and empties `approved_phases`. -/
theorem c2_counterexample_reinit_regresses :
    phaseIdxAt (runOps envOk []
      [ToolOp.init "feat" "d" 0, ToolOp.genRequirements "feat" true 1]) "feat" = 1 ∧
    SpecPhase.requirements ∈ approvedAt (runOps envOk []
      [ToolOp.init "feat" "d" 0, ToolOp.genRequirements "feat" true 1]) "feat" ∧
    phaseIdxAt (runOps envOk []
      [ToolOp.init "feat" "d" 0, ToolOp.genRequirements "feat" true 1,
        ToolOp.init "feat" "d" 2]) "feat" = 0 ∧
    SpecPhase.requirements ∉ approvedAt (runOps envOk []
      [ToolOp.init "feat" "d" 0, ToolOp.genRequirements "feat" true 1,
        ToolOp.init "feat" "d" 2]) "feat" := by decide

/-- Witness for C2 (amended) on a concrete two-step generation run. -/
theorem c2_witness :
    (GoodState specsReq ∧
      (∀ op ∈ [ToolOp.genDesign "user-auth" true 2, ToolOp.genTasks "user-auth" true 3],
        op.isInit = false)) ∧
    (phaseIdxAt specsReq "user-auth" ≤
      phaseIdxAt (runOps envOk specsReq
        [ToolOp.genDesign "user-auth" true 2, ToolOp.genTasks "user-auth" true 3])
        "user-auth" ∧
      approvedAt specsReq "user-auth" ⊆
        approvedAt (runOps envOk specsReq
          [ToolOp.genDesign "user-auth" true 2, ToolOp.genTasks "user-auth" true 3])
          "user-auth") :=
  ⟨⟨by decide, by decide⟩,
    c2_monotonic_without_reinit envOk
      [ToolOp.genDesign "user-auth" true 2, ToolOp.genTasks "user-auth" true 3]
      specsReq "user-auth" (by decide) (by decide)⟩

/-- C4 (code-bug evidence): `spec_init` on a feature that already has
metadata in phase `Requirements` with `Requirements` approved does not
fail with a Conflict-kind error and does not return the existing metadata
unchanged: it reports success and silently resets `current_phase` to
`Initialized` and `approved_phases` to empty (keeping any artifact
files). -/
theorem c4_reinit_silently_resets :
    spec_init
      [("user-auth",
        ⟨some ⟨"user-auth", "OAuth login", .requirements, 0, 1, [.requirements]⟩,
          some "R", none, none, none⟩)]
      "user-auth" "second description" 5 =
    .ok ([("user-auth",
        ⟨some ⟨"user-auth", "second description", .initialized, 5, 5, []⟩,
          some "R", none, none, none⟩)],
      ⟨true, "user-auth", ".kiro/specs/user-auth", "initialized",
        "Specification user-auth initialized successfully"⟩) := by decide

/-- Counterexample to C6 as stated: a name containing an underscore is NOT
normalized to hyphens by initialization — the metadata validator keeps the
underscore, so `spec_init` creates `.kiro/specs/user_auth`, not
`.kiro/specs/user-auth`. -/
theorem c6_counterexample_underscore_preserved :
    validate_feature_name "user_auth" = .ok "user_auth" ∧
    "user_auth" ≠ "user-auth" ∧
    spec_init [] "user_auth" "OAuth login" 0 =
      .ok ([("user_auth",
          ⟨some ⟨"user_auth", "OAuth login", .initialized, 0, 0, []⟩,
            none, none, none, none⟩)],
        ⟨true, "user_auth", ".kiro/specs/user_auth", "initialized",
          "Specification user_auth initialized successfully"⟩) := by decide

/-- C6 (amended): initialization normalizes a feature name by stripping,
lowercasing and replacing spaces — but not underscores — with hyphens; the
separate `normalize_feature_name` path utility is the initialization
normalization followed by underscore replacement, so the two agree exactly
when underscore replacement changes nothing.  In particular
`init("User Auth")` yields `"user-auth"`, while `"user_auth"` stays
`"user_auth"` under initialization even though `normalize_feature_name`
maps it to `"user-auth"`. -/
theorem c6_amended_normalization :
    (∀ v w, validate_feature_name v = .ok w →
      normalize_feature_name v = pyReplace w "_" "-") ∧
    validate_feature_name "User Auth" = .ok "user-auth" ∧
    normalize_feature_name "User Auth" = "user-auth" ∧
    validate_feature_name "user_auth" = .ok "user_auth" ∧
    normalize_feature_name "user_auth" = "user-auth" := by
  refine ⟨?_, by decide, by decide, by decide, by decide⟩
  intro v w h
  unfold validate_feature_name at h
  split at h
  · cases h
  · injection h with h
    subst h
    rfl

/-- Witness for C6 (amended) at the underscore name. -/
theorem c6_witness :
    validate_feature_name "user_auth" = .ok "user_auth" ∧
    normalize_feature_name "user_auth" = pyReplace "user_auth" "_" "-" :=
  ⟨by decide, c6_amended_normalization.1 "user_auth" "user_auth" (by decide)⟩

/-- C7 (code-bug evidence): a feature created by `spec_init` — whose
directory holds `metadata.json` and no `spec.json` — does not appear in
`list_specs`, because `list_specs` tests for `spec.json`; conversely a
directory holding only a `spec.json` is listed even without metadata. -/
theorem c7_list_specs_checks_spec_json :
    spec_init [] "user-auth" "OAuth login" 0 =
      .ok ([("user-auth",
          ⟨some ⟨"user-auth", "OAuth login", .initialized, 0, 0, []⟩,
            none, none, none, none⟩)],
        ⟨true, "user-auth", ".kiro/specs/user-auth", "initialized",
          "Specification user-auth initialized successfully"⟩) ∧
    list_specs
      [("user-auth",
        ⟨some ⟨"user-auth", "OAuth login", .initialized, 0, 0, []⟩,
          none, none, none, none⟩)] = [] ∧
    list_specs [("ghost", ⟨none, none, none, none, some "x"⟩)] = ["ghost"] := by
  decide

/-- Counterexample to C8 as stated: on a design text containing all five
topic keywords in lower case (and not containing the literal `"API"` or
the word endpoint), the claimed case-insensitive keyword scan finds all
five topics (score 100), but `validate_design` reports `api` missing and
completeness 80 — the `"API"` check is case-sensitive and the
case-insensitive fallback looks for `endpoint`, not `api`. -/
theorem c8_counterexample_api_case :
    (validate_design specsDesignText "feat" 9).map
        (fun r => (r.missing_components, r.passed)) = .ok (["api"], true) ∧
    (validate_design specsDesignText "feat" 9).map
        (fun r => r.design_completeness) = .ok 80 ∧
    claim_topics_present designTextLower = 5 ∧
    ((claim_topics_present designTextLower : ℚ) / 5 * 100 = 100) ∧
    (80 : ℚ) ≠ (claim_topics_present designTextLower : ℚ) / 5 * 100 := by
  have h3 : claim_topics_present designTextLower = 5 := by decide
  have hmiss : missing_design_elements designTextLower = ["api"] := by decide
  have heval := validate_design_eval specsDesignText "feat"
    (⟨some ⟨"feat", "demo", .design, 0, 1, []⟩, some "REQ",
      some designTextLower, none, none⟩)
    ⟨"feat", "demo", .design, 0, 1, []⟩ designTextLower "REQ" 9
    (by decide) (by decide) (by decide) (by decide) (by decide)
  refine ⟨?_, ?_, h3, ?_, ?_⟩
  · rw [heval]
    simp [hmiss, Except.map]
  · rw [heval]
    simp [hmiss, Except.map]
    norm_num
  · rw [h3]
    norm_num
  · rw [h3]
    norm_num

/-- C8 (amended): for every feature whose `design.md` and
`requirements.md` both exist, `validate_design` runs the five checks of
`design_checks` — `architecture`, `components`, `data models` (matched
through the word model), `api` (matched through the literal `"API"` or the
word endpoint) and `security`, each case-insensitive except the literal
first alternative — reports one warning-severity issue per failed check,
sets `design_completeness` to (passing checks / 5) × 100, and passes
because no error-severity issue is produced on this path. -/
theorem c8_amended_design_validation (specs : Specs) (name : String)
    (dir : SpecDirState) (m : SpecificationMetadata) (d r : String) (now : Nat)
    (hdir : lookupDir specs name = some dir) (hm : dir.metadata = some m)
    (hv : validate_feature_name m.feature_name = .ok m.feature_name)
    (hd : dir.design_md = some d) (hr : dir.requirements_md = some r) :
    validate_design specs name now =
      .ok { validation_type := "design_validation", feature_name := name,
            passed := true,
            issues := (missing_design_elements d).map missing_element_issue,
            summary := "Design validation completed with " ++
              toString (missing_design_elements d).length ++ " issues",
            validated_at := now,
            requirements_coverage := 85,
            missing_components := missing_design_elements d,
            design_completeness := ((present_design_topics d : ℚ)) / 5 * 100 } ∧
    ((missing_design_elements d).map missing_element_issue).filter
      (fun i => i.severity = ValidationSeverity.error) = [] := by
  have h5 : present_design_topics d + (missing_design_elements d).length = 5 := by
    have := filter_true_false_length (design_checks d)
    rw [design_checks_length] at this
    exact this
  have hq : ((5 : ℚ) - ((missing_design_elements d).length : ℚ)) =
      (present_design_topics d : ℚ) := by
    have h5q : ((present_design_topics d : ℚ)) +
        ((missing_design_elements d).length : ℚ) = 5 := by
      exact_mod_cast congrArg (Nat.cast : Nat → ℚ) h5
    linarith
  refine ⟨?_, filter_error_issues _⟩
  rw [validate_design_eval specs name dir m d r now hdir hm hv hd hr, hq]

/-- Witness for C8 (amended) at a concrete feature whose design text
misses every topic. -/
theorem c8_witness :
    (lookupDir specsDes "user-auth" = some dirDes ∧ dirDes.metadata = some mDes ∧
      validate_feature_name mDes.feature_name = .ok mDes.feature_name ∧
      dirDes.design_md = some "D" ∧ dirDes.requirements_md = some "R") ∧
    validate_design specsDes "user-auth" 11 =
      .ok { validation_type := "design_validation", feature_name := "user-auth",
            passed := true,
            issues := (missing_design_elements "D").map missing_element_issue,
            summary := "Design validation completed with " ++
              toString (missing_design_elements "D").length ++ " issues",
            validated_at := 11,
            requirements_coverage := 85,
            missing_components := missing_design_elements "D",
            design_completeness := ((present_design_topics "D" : ℚ)) / 5 * 100 } :=
  ⟨⟨by decide, by decide, by decide, by decide, by decide⟩,
    (c8_amended_design_validation specsDes "user-auth" dirDes mDes "D" "R" 11
      (by decide) (by decide) (by decide) (by decide) (by decide)).1⟩

/-- C10: the generation and status operations use the caller-supplied
feature name verbatim to locate the spec directory: `spec_init` with
`"User Auth"` creates `.kiro/specs/user-auth`, but `generate_requirements`
and `get_spec_status` called with the same raw name look under
`.kiro/specs/User Auth` and report the feature as not found; only the
already-normalized name reaches the metadata. -/
theorem c10_raw_name_lookup :
    spec_init [] "User Auth" "OAuth login" 0 =
      .ok ([("user-auth",
          ⟨some ⟨"user-auth", "OAuth login", .initialized, 0, 0, []⟩,
            none, none, none, none⟩)],
        ⟨true, "user-auth", ".kiro/specs/user-auth", "initialized",
          "Specification user-auth initialized successfully"⟩) ∧
    get_spec_status
      [("user-auth",
        ⟨some ⟨"user-auth", "OAuth login", .initialized, 0, 0, []⟩,
          none, none, none, none⟩)] "User Auth" =
      .ok (.notFound (spec_not_found_msg "User Auth") "User Auth") ∧
    generate_requirements envOk
      [("user-auth",
        ⟨some ⟨"user-auth", "OAuth login", .initialized, 0, 0, []⟩,
          none, none, none, none⟩)] "User Auth" false 1 =
      .error (spec_not_found_msg "User Auth") ∧
    get_spec_status
      [("user-auth",
        ⟨some ⟨"user-auth", "OAuth login", .initialized, 0, 0, []⟩,
          none, none, none, none⟩)] "user-auth" =
      .ok (.status "user-auth" "OAuth login" "initialized" [] 0 0
        false false false ".kiro/specs/user-auth") := by decide
